import Mathlib

/-!
Verification of the chunk codec in `src/chunk_type.rs` and `src/chunk.rs`.

Bytes are modelled as `Nat` (with `< 256` hypotheses where Rust's `u8` type
guarantees the bound), `u32` arithmetic carries an explicit `% 2^32`, and
fallible Rust functions return `Except`.
-/

/-- Big-endian byte decomposition of a `u32` (Rust `u32::to_be_bytes`). -/
def u32_to_be_bytes (n : Nat) : List Nat :=
  [n / 2 ^ 24 % 256, n / 2 ^ 16 % 256, n / 2 ^ 8 % 256, n % 256]

/-- Reassembly of a `u32` from four big-endian bytes (Rust `u32::from_be_bytes`). -/
def u32_from_be_bytes (b0 b1 b2 b3 : Nat) : Nat :=
  b0 * 2 ^ 24 + b1 * 2 ^ 16 + b2 * 2 ^ 8 + b3

/-- Reflected generator polynomial of CRC-32/IEEE 802.3. -/
def CRC_POLY : Nat := 0xEDB88320

/-- One bit-step of the reflected CRC-32 state update. -/
def crcBitStep (c : Nat) : Nat :=
  if c &&& 1 == 1 then (c >>> 1) ^^^ CRC_POLY else c >>> 1

/-- Eight bit-steps: the processing of one full byte once xored into the state. -/
def crcBitStep8 (c : Nat) : Nat :=
  crcBitStep (crcBitStep (crcBitStep (crcBitStep
    (crcBitStep (crcBitStep (crcBitStep (crcBitStep c)))))))

/-- CRC-32 state update for one data byte. -/
def crcByteStep (c b : Nat) : Nat := crcBitStep8 (c ^^^ b)

/-- CRC-32 (IEEE 802.3) of a byte sequence: model of `crc::crc32::checksum_ieee`,
the function called by `Chunk::crc`. -/
def crc32 (data : List Nat) : Nat :=
  (data.foldl crcByteStep 0xFFFFFFFF) ^^^ 0xFFFFFFFF

/-- Model of `is_bit_set` (chunk_type.rs): bit `n` of byte `x`, guarded to
`false` whenever `n ≥ 8`. -/
def is_bit_set (x n : Nat) : Bool :=
  if n ≥ 8 || (x >>> n) &&& 1 == 0 then false else true

/-- Rust `u8::is_ascii_alphabetic`. -/
def isAsciiAlphabetic (b : Nat) : Bool :=
  (65 ≤ b && b ≤ 90) || (97 ≤ b && b ≤ 122)

/-- Model of `ChunkType` (chunk_type.rs): the four bytes of the `bytez: [u8; 4]`
field, split into one field per byte. -/
structure ChunkType where
  bytez0 : Nat
  bytez1 : Nat
  bytez2 : Nat
  bytez3 : Nat
deriving DecidableEq

/-- Model of `ChunkType::bytes`. -/
def ChunkType.bytes (t : ChunkType) : List Nat :=
  [t.bytez0, t.bytez1, t.bytez2, t.bytez3]

/-- Model of `ChunkType::is_critical`. -/
def ChunkType.is_critical (t : ChunkType) : Bool := !is_bit_set t.bytez0 5

/-- Model of `ChunkType::is_public`. -/
def ChunkType.is_public (t : ChunkType) : Bool := !is_bit_set t.bytez1 5

/-- Model of `ChunkType::is_reserved_bit_valid`. -/
def ChunkType.is_reserved_bit_valid (t : ChunkType) : Bool := !is_bit_set t.bytez2 5

/-- Model of `ChunkType::is_safe_to_copy`. -/
def ChunkType.is_safe_to_copy (t : ChunkType) : Bool := is_bit_set t.bytez3 5

/-- Model of `ChunkType::is_valid_characters`. -/
def ChunkType.is_valid_characters (t : ChunkType) : Bool :=
  t.bytes.all isAsciiAlphabetic

/-- Model of `ChunkType::is_valid` (the `println!` debug output is ignored). -/
def ChunkType.is_valid (t : ChunkType) : Bool :=
  t.is_valid_characters && t.is_reserved_bit_valid

/-- Model of `ChunkTypeError` (chunk_type.rs). -/
inductive ChunkTypeError where
  | ByteLengthError (size : Nat)
  | InvalidBytesError
deriving DecidableEq

/-- Model of `impl TryFrom<[u8; 4]> for ChunkType`. -/
def ChunkType.try_from (b0 b1 b2 b3 : Nat) : Except ChunkTypeError ChunkType :=
  let chunk_type : ChunkType := ⟨b0, b1, b2, b3⟩
  if chunk_type.is_valid then Except.ok chunk_type
  else Except.error ChunkTypeError.InvalidBytesError

/-- Model of `impl FromStr for ChunkType`; the argument is the byte sequence of
the input string (`s.as_bytes()`), and a length other than 4 is exactly a list
not of the 4-element shape. -/
def ChunkType.from_str (s : List Nat) : Except ChunkTypeError ChunkType :=
  match s with
  | [a, b, c, d] =>
    let chunk : ChunkType := ⟨a, b, c, d⟩
    if chunk.is_valid_characters then Except.ok chunk
    else Except.error ChunkTypeError.InvalidBytesError
  | _ => Except.error (ChunkTypeError.ByteLengthError s.length)

/-- Model of `Chunk` (chunk.rs). -/
structure Chunk where
  chunk_type : ChunkType
  chunk_data : List Nat
deriving DecidableEq

/-- Model of `Chunk::new`: unconditional construction. -/
def Chunk.new (chunk_type : ChunkType) (chunk_data : List Nat) : Chunk :=
  ⟨chunk_type, chunk_data⟩

/-- Model of `Chunk::length`: `self.chunk_data.len() as u32`. -/
def Chunk.length (c : Chunk) : Nat := c.chunk_data.length % 2 ^ 32

/-- Model of `Chunk::crc`: CRC-32/IEEE over the type-code bytes followed by the
payload bytes. -/
def Chunk.crc (c : Chunk) : Nat := crc32 (c.chunk_type.bytes ++ c.chunk_data)

/-- Model of `Chunk::as_bytes`: big-endian length, type bytes, payload,
big-endian checksum. -/
def Chunk.as_bytes (c : Chunk) : List Nat :=
  u32_to_be_bytes c.length ++ c.chunk_type.bytes ++ c.chunk_data ++ u32_to_be_bytes c.crc

/-- Errors of the parse path.  The Rust code boxes its local `ChunkError`
(LengthError, CrcMismatchError) together with propagated `std::io` truncation
errors and `ChunkTypeError` into one `Box<dyn Error>`; this inductive flattens
that union into one closed type. -/
inductive ChunkError where
  | TruncatedInput
  | InvalidTypeCode
  | LengthError (expected actual : Nat)
  | CrcMismatchError (provided computed : Nat)
deriving DecidableEq

/-- Model of `impl TryFrom<&[u8]> for Chunk` (chunk.rs).  Each `read_exact`
that runs out of input yields `TruncatedInput`; `usize::try_from` on a `u32`
cannot fail on the supported targets and is dropped.  A buffer of 4 to 7 bytes
also fails the second `read_exact`, so both short shapes share the final
`TruncatedInput` arm. -/
def Chunk.try_from (value : List Nat) : Except ChunkError Chunk :=
  match value with
  | l0 :: l1 :: l2 :: l3 :: t0 :: t1 :: t2 :: t3 :: rest =>
    let length := u32_from_be_bytes l0 l1 l2 l3
    match ChunkType.try_from t0 t1 t2 t3 with
    | Except.error _ => Except.error ChunkError.InvalidTypeCode
    | Except.ok chunk_type =>
      if rest.length < length then Except.error ChunkError.TruncatedInput
      else
        let chunk_data := rest.take length
        if chunk_data.length ≠ length then
          Except.error (ChunkError.LengthError length chunk_data.length)
        else
          match rest.drop length with
          | c0 :: c1 :: c2 :: c3 :: _ =>
            let crc_provided := u32_from_be_bytes c0 c1 c2 c3
            let crc_computed := (Chunk.new chunk_type chunk_data).crc
            if crc_provided ≠ crc_computed then
              Except.error (ChunkError.CrcMismatchError crc_provided crc_computed)
            else Except.ok (Chunk.new chunk_type chunk_data)
          | _ => Except.error ChunkError.TruncatedInput
  | _ => Except.error ChunkError.TruncatedInput

/-- Decides whether a parse result is a `CrcMismatchError`. -/
def resultIsCrcMismatch : Except ChunkError Chunk → Bool
  | Except.error (ChunkError.CrcMismatchError _ _) => true
  | _ => false

/-- Decides whether a parse result is a `LengthError`. -/
def resultIsLengthError : Except ChunkError Chunk → Bool
  | Except.error (ChunkError.LengthError _ _) => true
  | _ => false

/-- Decides whether an error belongs to the truncation / length-mismatch family. -/
def ChunkError.isTruncatedOrLength : ChunkError → Bool
  | ChunkError.TruncatedInput => true
  | ChunkError.LengthError _ _ => true
  | _ => false

/-- Byte sequence of the 42-byte ASCII test message used by the repository. -/
def secretMessage : List Nat :=
  [84, 104, 105, 115, 32, 105, 115, 32, 119, 104, 101, 114, 101, 32, 121, 111,
   117, 114, 32, 115, 101, 99, 114, 101, 116, 32, 109, 101, 115, 115, 97, 103,
   101, 32, 119, 105, 108, 108, 32, 98, 101, 33]

/-- The chunk of the repository's concrete test scenario: type "RuSt" with the
42-byte message payload. -/
def scenarioAChunk : Chunk := Chunk.new (ChunkType.mk 82 117 83 116) secretMessage

/-- The serialized scenario chunk: length 42, type "RuSt", message, CRC. -/
def scenarioABuffer : List Nat :=
  [0, 0, 0, 42, 82, 117, 83, 116] ++ secretMessage ++ [171, 209, 216, 78]

/-- A small valid wire buffer: type "RuSt" with an empty payload. -/
def emptyRuStBuffer : List Nat :=
  [0, 0, 0, 0, 82, 117, 83, 116, 212, 132, 9, 60]

deriving instance DecidableEq for Except

/-- Big-endian decomposition followed by reassembly is the identity below `2^32`. -/
theorem u32_from_to (n : Nat) (h : n < 2 ^ 32) :
    u32_from_be_bytes (n / 2 ^ 24 % 256) (n / 2 ^ 16 % 256) (n / 2 ^ 8 % 256) (n % 256) = n := by
  unfold u32_from_be_bytes
  omega

/-- For an in-range bit index the helper agrees with `Nat.testBit`. -/
theorem is_bit_set_eq_testBit (x n : Nat) (h : n < 8) : is_bit_set x n = x.testBit n := by
  have h8 : ¬ n ≥ 8 := by omega
  rw [is_bit_set, Nat.testBit_to_div_mod, Nat.shiftRight_eq_div_pow]
  by_cases hx : x / 2 ^ n % 2 = 1
  · simp [h8, Nat.and_one_is_mod, hx]
  · simp [h8, Nat.and_one_is_mod, hx]
    omega

/-- ASCII alphabetic bytes fit in a byte. -/
theorem isAsciiAlphabetic_lt (b : Nat) (h : isAsciiAlphabetic b = true) : b < 256 := by
  unfold isAsciiAlphabetic at h
  simp only [Bool.or_eq_true, Bool.and_eq_true, decide_eq_true_eq] at h
  omega

/-- The four bytes of a type code accepted by `is_valid` are genuine bytes. -/
theorem valid_type_bytes_lt (t : ChunkType) (ht : t.is_valid = true) :
    t.bytez0 < 256 ∧ t.bytez1 < 256 ∧ t.bytez2 < 256 ∧ t.bytez3 < 256 := by
  unfold ChunkType.is_valid ChunkType.is_valid_characters ChunkType.bytes at ht
  simp only [Bool.and_eq_true, List.all_cons, List.all_nil] at ht
  obtain ⟨⟨a0, a1, a2, a3, -⟩, -⟩ := ht
  exact ⟨isAsciiAlphabetic_lt _ a0, isAsciiAlphabetic_lt _ a1,
    isAsciiAlphabetic_lt _ a2, isAsciiAlphabetic_lt _ a3⟩

/-- Arithmetic description of one CRC bit-step. -/
theorem crcBitStep_eq (c : Nat) :
    crcBitStep c = if c % 2 = 1 then (c / 2) ^^^ CRC_POLY else c / 2 := by
  rw [crcBitStep, Nat.and_one_is_mod, Nat.shiftRight_one]
  by_cases h : c % 2 = 1 <;> simp [h]

/-- The CRC bit-step keeps the state inside 32 bits. -/
theorem crcBitStep_lt (c : Nat) (h : c < 2 ^ 32) : crcBitStep c < 2 ^ 32 := by
  rw [crcBitStep_eq]
  by_cases hp : c % 2 = 1
  · rw [if_pos hp]
    exact Nat.xor_lt_two_pow (by omega) (by norm_num [CRC_POLY])
  · rw [if_neg hp]
    omega

/-- The CRC bit-step is injective on 32-bit states. -/
theorem crcBitStep_inj (c1 c2 : Nat) (h1 : c1 < 2 ^ 32) (h2 : c2 < 2 ^ 32)
    (h : crcBitStep c1 = crcBitStep c2) : c1 = c2 := by
  rw [crcBitStep_eq, crcBitStep_eq] at h
  have hPbit : CRC_POLY.testBit 31 = true := by decide
  by_cases p1 : c1 % 2 = 1 <;> by_cases p2 : c2 % 2 = 1
  · rw [if_pos p1, if_pos p2] at h
    have h' := congrArg (· ^^^ CRC_POLY) h
    simp only [Nat.xor_cancel_right] at h'
    omega
  · rw [if_pos p1, if_neg p2] at h
    exfalso
    have hb1 : (c1 / 2).testBit 31 = false := Nat.testBit_lt_two_pow (by omega)
    have hb2 : (c2 / 2).testBit 31 = false := Nat.testBit_lt_two_pow (by omega)
    have h' := congrArg (fun y => Nat.testBit y 31) h
    simp only [Nat.testBit_xor, hb1, hb2, hPbit] at h'
    exact absurd h' (by decide)
  · rw [if_neg p1, if_pos p2] at h
    exfalso
    have hb1 : (c1 / 2).testBit 31 = false := Nat.testBit_lt_two_pow (by omega)
    have hb2 : (c2 / 2).testBit 31 = false := Nat.testBit_lt_two_pow (by omega)
    have h' := congrArg (fun y => Nat.testBit y 31) h
    simp only [Nat.testBit_xor, hb1, hb2, hPbit] at h'
    exact absurd h' (by decide)
  · rw [if_neg p1, if_neg p2] at h
    omega

/-- Eight bit-steps keep the state inside 32 bits. -/
theorem crcBitStep8_lt (c : Nat) (h : c < 2 ^ 32) : crcBitStep8 c < 2 ^ 32 := by
  unfold crcBitStep8
  exact crcBitStep_lt _ (crcBitStep_lt _ (crcBitStep_lt _ (crcBitStep_lt _
    (crcBitStep_lt _ (crcBitStep_lt _ (crcBitStep_lt _ (crcBitStep_lt _ h)))))))

/-- Eight bit-steps are injective on 32-bit states. -/
theorem crcBitStep8_inj (c1 c2 : Nat) (h1 : c1 < 2 ^ 32) (h2 : c2 < 2 ^ 32)
    (h : crcBitStep8 c1 = crcBitStep8 c2) : c1 = c2 := by
  have a1 := crcBitStep_lt _ h1
  have a2 := crcBitStep_lt _ a1
  have a3 := crcBitStep_lt _ a2
  have a4 := crcBitStep_lt _ a3
  have a5 := crcBitStep_lt _ a4
  have a6 := crcBitStep_lt _ a5
  have a7 := crcBitStep_lt _ a6
  have b1 := crcBitStep_lt _ h2
  have b2 := crcBitStep_lt _ b1
  have b3 := crcBitStep_lt _ b2
  have b4 := crcBitStep_lt _ b3
  have b5 := crcBitStep_lt _ b4
  have b6 := crcBitStep_lt _ b5
  have b7 := crcBitStep_lt _ b6
  unfold crcBitStep8 at h
  exact crcBitStep_inj _ _ h1 h2 (crcBitStep_inj _ _ a1 b1 (crcBitStep_inj _ _ a2 b2
    (crcBitStep_inj _ _ a3 b3 (crcBitStep_inj _ _ a4 b4 (crcBitStep_inj _ _ a5 b5
      (crcBitStep_inj _ _ a6 b6 (crcBitStep_inj _ _ a7 b7 h)))))))

/-- The byte-step keeps the state inside 32 bits. -/
theorem crcByteStep_lt (c b : Nat) (hc : c < 2 ^ 32) (hb : b < 2 ^ 32) :
    crcByteStep c b < 2 ^ 32 :=
  crcBitStep8_lt _ (Nat.xor_lt_two_pow hc hb)

/-- The byte-step is injective in the state argument. -/
theorem crcByteStep_inj_state (c1 c2 b : Nat) (h1 : c1 < 2 ^ 32) (h2 : c2 < 2 ^ 32)
    (hb : b < 2 ^ 32) (h : crcByteStep c1 b = crcByteStep c2 b) : c1 = c2 := by
  have h' := crcBitStep8_inj _ _ (Nat.xor_lt_two_pow h1 hb) (Nat.xor_lt_two_pow h2 hb) h
  have h'' := congrArg (· ^^^ b) h'
  simpa only [Nat.xor_cancel_right] using h''

/-- The byte-step is injective in the byte argument. -/
theorem crcByteStep_inj_byte (c b1 b2 : Nat) (hc : c < 2 ^ 32) (hb1 : b1 < 2 ^ 32)
    (hb2 : b2 < 2 ^ 32) (h : crcByteStep c b1 = crcByteStep c b2) : b1 = b2 := by
  have h' := crcBitStep8_inj _ _ (Nat.xor_lt_two_pow hc hb1) (Nat.xor_lt_two_pow hc hb2) h
  have h'' := congrArg (c ^^^ ·) h'
  simpa only [Nat.xor_cancel_left] using h''

/-- Folding the byte-step over byte data keeps the state inside 32 bits. -/
theorem foldl_crcByteStep_lt (l : List Nat) (s : Nat) (hs : s < 2 ^ 32)
    (hl : ∀ x ∈ l, x < 2 ^ 32) : l.foldl crcByteStep s < 2 ^ 32 := by
  induction l generalizing s with
  | nil => simpa using hs
  | cons a l ih =>
    simp only [List.foldl_cons]
    exact ih (crcByteStep _ _) (crcByteStep_lt _ _ hs (hl a (by simp)))
      (fun x hx => hl x (by simp [hx]))

/-- Folding the byte-step over byte data is injective in the initial state. -/
theorem foldl_crcByteStep_inj (l : List Nat) (s1 s2 : Nat) (h1 : s1 < 2 ^ 32)
    (h2 : s2 < 2 ^ 32) (hl : ∀ x ∈ l, x < 2 ^ 32)
    (h : l.foldl crcByteStep s1 = l.foldl crcByteStep s2) : s1 = s2 := by
  induction l generalizing s1 s2 with
  | nil => simpa using h
  | cons a l ih =>
    simp only [List.foldl_cons] at h
    have ha : a < 2 ^ 32 := hl a (by simp)
    have hrec := ih _ _ (crcByteStep_lt _ _ h1 ha) (crcByteStep_lt _ _ h2 ha)
      (fun x hx => hl x (by simp [hx])) h
    exact crcByteStep_inj_state _ _ _ h1 h2 ha hrec

/-- The CRC-32 of byte data is a 32-bit value. -/
theorem crc32_lt (l : List Nat) (hl : ∀ x ∈ l, x < 2 ^ 32) : crc32 l < 2 ^ 32 := by
  unfold crc32
  exact Nat.xor_lt_two_pow (foldl_crcByteStep_lt l _ (by norm_num) hl) (by norm_num)

/-- Changing one byte anywhere in the data changes the CRC-32. -/
theorem crc32_flip_ne (pre suf : List Nat) (b b' : Nat)
    (hpre : ∀ x ∈ pre, x < 2 ^ 32) (hsuf : ∀ x ∈ suf, x < 2 ^ 32)
    (hb : b < 2 ^ 32) (hb' : b' < 2 ^ 32) (hne : b ≠ b') :
    crc32 (pre ++ b :: suf) ≠ crc32 (pre ++ b' :: suf) := by
  intro h
  unfold crc32 at h
  have h2 : (pre ++ b :: suf).foldl crcByteStep 0xFFFFFFFF
      = (pre ++ b' :: suf).foldl crcByteStep 0xFFFFFFFF := by
    have h' := congrArg (· ^^^ 0xFFFFFFFF) h
    simpa only [Nat.xor_cancel_right] using h'
  rw [List.foldl_append, List.foldl_append, List.foldl_cons, List.foldl_cons] at h2
  have hsb : pre.foldl crcByteStep 0xFFFFFFFF < 2 ^ 32 :=
    foldl_crcByteStep_lt pre _ (by norm_num) hpre
  have hst := foldl_crcByteStep_inj suf _ _ (crcByteStep_lt _ _ hsb hb)
    (crcByteStep_lt _ _ hsb hb') hsuf h2
  exact hne (crcByteStep_inj_byte _ _ _ hsb hb hb' hst)

/-- Bytes are in particular 32-bit values. -/
theorem bytes_lt_u32 {l : List Nat} (h : ∀ x ∈ l, x < 256) : ∀ x ∈ l, x < 2 ^ 32 :=
  fun x hx => lt_of_lt_of_le (h x hx) (by norm_num)

/-- A valid type code round-trips through `ChunkType.try_from`. -/
theorem try_from_of_valid (t : ChunkType) (ht : t.is_valid = true) :
    ChunkType.try_from t.bytez0 t.bytez1 t.bytez2 t.bytez3 = Except.ok t := by
  unfold ChunkType.try_from
  rw [if_pos ht]

/-- Parsing a well-formed wire buffer reduces to the checksum comparison. -/
theorem try_from_wire (t : ChunkType) (p : List Nat) (w : Nat)
    (ht : t.is_valid = true) (hlen : p.length < 2 ^ 32) (hw : w < 2 ^ 32) :
    Chunk.try_from (u32_to_be_bytes p.length ++ t.bytes ++ p ++ u32_to_be_bytes w)
      = if w ≠ (Chunk.new t p).crc
        then Except.error (ChunkError.CrcMismatchError w ((Chunk.new t p).crc))
        else Except.ok (Chunk.new t p) := by
  have e1 : u32_from_be_bytes (p.length / 2 ^ 24 % 256) (p.length / 2 ^ 16 % 256)
      (p.length / 2 ^ 8 % 256) (p.length % 256) = p.length := u32_from_to _ hlen
  have e2 : ChunkType.try_from t.bytez0 t.bytez1 t.bytez2 t.bytez3 = Except.ok t :=
    try_from_of_valid t ht
  have e3 : u32_from_be_bytes (w / 2 ^ 24 % 256) (w / 2 ^ 16 % 256)
      (w / 2 ^ 8 % 256) (w % 256) = w := u32_from_to _ hw
  simp only [u32_to_be_bytes, ChunkType.bytes, List.cons_append, List.nil_append]
  simp only [Chunk.try_from, e1, e2]
  rw [if_neg (by simp)]
  rw [List.take_left' rfl, List.drop_left' rfl]
  rw [if_neg (by simp)]
  simp only [e3]

set_option maxRecDepth 8000 in
theorem crcSeg0 : List.foldl crcByteStep 0xFFFFFFFF [82, 117, 83, 116] = 729544387 := by decide

set_option maxRecDepth 8000 in
theorem crcSeg1 : List.foldl crcByteStep 729544387
    [84, 104, 105, 115, 32, 105, 115, 32, 119, 104, 101] = 352290443 := by decide

set_option maxRecDepth 8000 in
theorem crcSeg2 : List.foldl crcByteStep 352290443
    [114, 101, 32, 121, 111, 117, 114, 32, 115, 101, 99] = 834408959 := by decide

set_option maxRecDepth 8000 in
theorem crcSeg3 : List.foldl crcByteStep 834408959
    [114, 101, 116, 32, 109, 101, 115, 115, 97, 103] = 3018541135 := by decide

set_option maxRecDepth 8000 in
theorem crcSeg4 : List.foldl crcByteStep 3018541135
    [101, 32, 119, 105, 108, 108, 32, 98, 101, 33] = 1412310961 := by decide

/-- Concrete CRC of the scenario-A data (type "RuSt" followed by the message). -/
theorem scenarioACrc : crc32 ([82, 117, 83, 116] ++ secretMessage) = 2882656334 := by
  have hsplit : [82, 117, 83, 116] ++ secretMessage
      = [82, 117, 83, 116] ++ ([84, 104, 105, 115, 32, 105, 115, 32, 119, 104, 101]
        ++ ([114, 101, 32, 121, 111, 117, 114, 32, 115, 101, 99]
        ++ ([114, 101, 116, 32, 109, 101, 115, 115, 97, 103]
        ++ [101, 32, 119, 105, 108, 108, 32, 98, 101, 33]))) := by rfl
  rw [crc32, hsplit, List.foldl_append, List.foldl_append, List.foldl_append,
    List.foldl_append, crcSeg0, crcSeg1, crcSeg2, crcSeg3, crcSeg4]
  decide

/-- Bytes of a valid type code together with a byte payload are all below 256. -/
theorem crc_data_bytes_lt (t : ChunkType) (d : List Nat) (ht : t.is_valid = true)
    (hd : ∀ x ∈ d, x < 256) : ∀ x ∈ t.bytes ++ d, x < 256 := by
  intro x hx
  rcases List.mem_append.mp hx with h | h
  · have hb := valid_type_bytes_lt t ht
    simp only [ChunkType.bytes, List.mem_cons, List.not_mem_nil, or_false] at h
    rcases h with rfl | rfl | rfl | rfl <;> omega
  · exact hd x h

/-- C1: for every type code accepted by `from_bytes` and every byte payload of
length at most `2^32 - 1`, parsing the serialization of `Chunk::new(t, d)`
succeeds and returns exactly `Chunk::new(t, d)`. -/
theorem c1_round_trip (t : ChunkType) (d : List Nat)
    (ht : t.is_valid = true)
    (hd : d.all (fun x => x < 256) = true)
    (hlen : d.length < 2 ^ 32) :
    Chunk.try_from (Chunk.new t d).as_bytes = Except.ok (Chunk.new t d) := by
  have hd' : ∀ x ∈ d, x < 256 := by
    simpa only [List.all_eq_true, decide_eq_true_eq] using hd
  have hcrc : (Chunk.new t d).crc < 2 ^ 32 :=
    crc32_lt _ (bytes_lt_u32 (crc_data_bytes_lt t d ht hd'))
  have hab : (Chunk.new t d).as_bytes
      = u32_to_be_bytes d.length ++ t.bytes ++ d ++ u32_to_be_bytes ((Chunk.new t d).crc) := by
    have hm : d.length % 4294967296 = d.length := Nat.mod_eq_of_lt (by omega)
    simp [Chunk.as_bytes, Chunk.new, Chunk.length, hm]
  rw [hab, try_from_wire t d _ ht hlen hcrc, if_neg (by simp)]

/-- Witness for C1 at the type code "RuSt" and the payload [1, 2, 3]. -/
theorem c1_round_trip_witness :
    (ChunkType.mk 82 117 83 116).is_valid = true
    ∧ ([1, 2, 3] : List Nat).all (fun x => x < 256) = true
    ∧ ([1, 2, 3] : List Nat).length < 2 ^ 32
    ∧ Chunk.try_from (Chunk.new (ChunkType.mk 82 117 83 116) [1, 2, 3]).as_bytes
        = Except.ok (Chunk.new (ChunkType.mk 82 117 83 116) [1, 2, 3]) :=
  ⟨by decide, by decide, by decide,
    c1_round_trip (ChunkType.mk 82 117 83 116) [1, 2, 3] (by decide) (by decide) (by decide)⟩

/-- Setting an element past a prefix steps over the prefix. -/
theorem set_append_skip {α : Type} (l₁ l₂ : List α) (n : Nat) (a : α) :
    (l₁ ++ l₂).set (l₁.length + n) a = l₁ ++ l₂.set n a := by
  induction l₁ with
  | nil => simp
  | cons x xs ih =>
    simp only [List.cons_append, List.length_cons]
    have hx : xs.length + 1 + n = (xs.length + n) + 1 := by omega
    rw [hx, List.set_cons_succ, ih]

/-- Setting the element right after a prefix replaces the head of the suffix. -/
theorem set_middle {α : Type} (p1 p2 : List α) (b b' : α) :
    (p1 ++ b :: p2).set p1.length b' = p1 ++ b' :: p2 := by
  have h := set_append_skip p1 (b :: p2) 0 b'
  simp only [Nat.add_zero, List.set_cons_zero] at h
  exact h

/-- Flipping one bit of a byte changes the byte. -/
theorem flip_ne (b j : Nat) : b ≠ b ^^^ (1 <<< j) := by
  intro h
  have h' := congrArg (b ^^^ ·) h
  simp only [Nat.xor_self, Nat.xor_cancel_left] at h'
  have hp : 0 < 1 <<< j := by
    rw [Nat.shiftLeft_eq]
    positivity
  omega

/-- A flipped byte is still a byte when the flipped bit index is below 8. -/
theorem flip_lt (b j : Nat) (hb : b < 256) (hj : j < 8) : b ^^^ (1 <<< j) < 256 := by
  have h1 : 1 <<< j < 256 := by
    rw [Nat.shiftLeft_eq, one_mul]
    calc 2 ^ j < 2 ^ 8 := Nat.pow_lt_pow_right (by omega) hj
    _ = 256 := by norm_num
  have := Nat.xor_lt_two_pow (n := 8) (by omega : b < 2 ^ 8) (by omega : 1 <<< j < 2 ^ 8)
  omega

/-- Flipping a single bit of a payload byte inside a serialized chunk, while
keeping the wire checksum field, makes parsing fail with a checksum mismatch. -/
theorem payload_flip_crc_mismatch (t : ChunkType) (p1 p2 : List Nat) (b j : Nat)
    (ht : t.is_valid = true)
    (hp1' : ∀ x ∈ p1, x < 256)
    (hb : b < 256)
    (hp2' : ∀ x ∈ p2, x < 256)
    (hj : j < 8)
    (hlen : (p1 ++ b :: p2).length < 2 ^ 32) :
    Chunk.try_from (((Chunk.new t (p1 ++ b :: p2)).as_bytes).set (8 + p1.length) (b ^^^ (1 <<< j)))
      = Except.error (ChunkError.CrcMismatchError ((Chunk.new t (p1 ++ b :: p2)).crc)
          ((Chunk.new t (p1 ++ (b ^^^ (1 <<< j)) :: p2)).crc)) := by
  have hbflip : b ^^^ (1 <<< j) < 256 := flip_lt b j hb hj
  have hd' : ∀ x ∈ p1 ++ b :: p2, x < 256 := by
    intro x hx
    rcases List.mem_append.mp hx with h | h
    · exact hp1' x h
    · rcases List.mem_cons.mp h with rfl | h
      · exact hb
      · exact hp2' x h
  have hw : (Chunk.new t (p1 ++ b :: p2)).crc < 2 ^ 32 :=
    crc32_lt _ (bytes_lt_u32 (crc_data_bytes_lt t _ ht hd'))
  have hlen' : (p1 ++ (b ^^^ (1 <<< j)) :: p2).length < 2 ^ 32 := by
    simp only [List.length_append, List.length_cons] at hlen ⊢
    omega
  have hset : ((Chunk.new t (p1 ++ b :: p2)).as_bytes).set (8 + p1.length) (b ^^^ (1 <<< j))
      = u32_to_be_bytes ((p1 ++ (b ^^^ (1 <<< j)) :: p2).length) ++ t.bytes
        ++ (p1 ++ (b ^^^ (1 <<< j)) :: p2)
        ++ u32_to_be_bytes ((Chunk.new t (p1 ++ b :: p2)).crc) := by
    have hm : (p1 ++ b :: p2).length % 2 ^ 32 = (p1 ++ b :: p2).length :=
      Nat.mod_eq_of_lt hlen
    have hlen2 : (p1 ++ (b ^^^ (1 <<< j)) :: p2).length = (p1 ++ b :: p2).length := by
      simp
    simp only [Chunk.as_bytes, Chunk.length, Chunk.new, hm, hlen2, List.append_assoc,
      List.cons_append]
    rw [show 8 + p1.length
        = (u32_to_be_bytes ((p1 ++ b :: p2).length)).length
          + ((ChunkType.bytes t).length + p1.length) by
      simp [u32_to_be_bytes, ChunkType.bytes]; omega]
    rw [set_append_skip, set_append_skip, set_middle]
  have hcrcne : (Chunk.new t (p1 ++ b :: p2)).crc
      ≠ (Chunk.new t (p1 ++ (b ^^^ (1 <<< j)) :: p2)).crc := by
    simp only [Chunk.crc, Chunk.new]
    have e1 : ChunkType.bytes t ++ (p1 ++ b :: p2)
        = (ChunkType.bytes t ++ p1) ++ b :: p2 := by simp
    have e2 : ChunkType.bytes t ++ (p1 ++ (b ^^^ (1 <<< j)) :: p2)
        = (ChunkType.bytes t ++ p1) ++ (b ^^^ (1 <<< j)) :: p2 := by simp
    rw [e1, e2]
    exact crc32_flip_ne _ _ _ _ (bytes_lt_u32 (crc_data_bytes_lt t p1 ht hp1'))
      (bytes_lt_u32 hp2') (by omega) (by omega) (flip_ne b j)
  rw [hset, try_from_wire t _ _ ht hlen' hw, if_pos hcrcne]

/-- The scenario-A buffer parses to the scenario-A chunk. -/
theorem scenarioAParses : Chunk.try_from scenarioABuffer = Except.ok scenarioAChunk := by
  have hbuf : scenarioABuffer
      = u32_to_be_bytes (secretMessage.length) ++ (ChunkType.mk 82 117 83 116).bytes
        ++ secretMessage ++ u32_to_be_bytes 2882656334 := by decide
  have hcrc : (Chunk.new (ChunkType.mk 82 117 83 116) secretMessage).crc = 2882656334 := by
    show crc32 ((ChunkType.mk 82 117 83 116).bytes ++ secretMessage) = 2882656334
    exact scenarioACrc
  rw [hbuf, try_from_wire _ _ _ (by decide) (by decide) (by decide), hcrc]
  rw [if_neg (by simp)]
  rfl

/-- C2 counterexample: the scenario buffer is valid, yet flipping bit 5 of the
serialized type-code byte at index 6 (keeping the checksum field unchanged)
makes parse fail with `InvalidTypeCode`, not with a checksum mismatch. -/
theorem c2_counterexample :
    Chunk.try_from scenarioABuffer = Except.ok scenarioAChunk
    ∧ Chunk.try_from (scenarioABuffer.set 6 (83 ^^^ (1 <<< 5)))
        = Except.error ChunkError.InvalidTypeCode
    ∧ resultIsCrcMismatch (Chunk.try_from (scenarioABuffer.set 6 (83 ^^^ (1 <<< 5)))) = false :=
  ⟨scenarioAParses, by decide, by decide⟩

/-- C5 counterexample: a buffer whose declared length (1) exceeds the zero
bytes remaining after the type-code field, but whose type-code bytes fail
validation, is rejected with `InvalidTypeCode` — not with a truncation or
length-mismatch error as the claim demands. -/
theorem c5_counterexample :
    u32_from_be_bytes 0 0 0 1 = 1
    ∧ Chunk.try_from [0, 0, 0, 1, 0, 0, 0, 0] = Except.error ChunkError.InvalidTypeCode
    ∧ ChunkError.InvalidTypeCode.isTruncatedOrLength = false :=
  ⟨by decide, by decide, by decide⟩

/-- C5 (amended): when the length and type-code fields are present, the type
code passes validation, and the declared length exceeds the remaining bytes,
parsing fails with `TruncatedInput` and the checksum comparison is never
reached (the result is not a checksum mismatch). -/
theorem c5_amended_truncated (l0 l1 l2 l3 t0 t1 t2 t3 : Nat) (rest : List Nat)
    (hvalid : (ChunkType.mk t0 t1 t2 t3).is_valid = true)
    (hlen : rest.length < u32_from_be_bytes l0 l1 l2 l3) :
    Chunk.try_from (l0 :: l1 :: l2 :: l3 :: t0 :: t1 :: t2 :: t3 :: rest)
        = Except.error ChunkError.TruncatedInput
    ∧ resultIsCrcMismatch
        (Chunk.try_from (l0 :: l1 :: l2 :: l3 :: t0 :: t1 :: t2 :: t3 :: rest)) = false := by
  have e2 : ChunkType.try_from t0 t1 t2 t3 = Except.ok (ChunkType.mk t0 t1 t2 t3) :=
    try_from_of_valid (ChunkType.mk t0 t1 t2 t3) hvalid
  have h1 : Chunk.try_from (l0 :: l1 :: l2 :: l3 :: t0 :: t1 :: t2 :: t3 :: rest)
      = Except.error ChunkError.TruncatedInput := by
    simp only [Chunk.try_from, e2]
    rw [if_pos hlen]
  exact ⟨h1, by rw [h1]; rfl⟩

/-- Witness for the amended C5: declared length 5 with no bytes after the
type-code field. -/
theorem c5_amended_truncated_witness :
    (ChunkType.mk 82 117 83 116).is_valid = true
    ∧ ([] : List Nat).length < u32_from_be_bytes 0 0 0 5
    ∧ (Chunk.try_from [0, 0, 0, 5, 82, 117, 83, 116] = Except.error ChunkError.TruncatedInput
       ∧ resultIsCrcMismatch (Chunk.try_from [0, 0, 0, 5, 82, 117, 83, 116]) = false) :=
  ⟨by decide, by decide,
    c5_amended_truncated 0 0 0 5 82 117 83 116 [] (by decide) (by decide)⟩

/-- C3: text construction checks only the length (exactly 4 bytes) and
ASCII-alphabetic characters — not the reserved bit — so "Rust" is accepted by
`from_str` while the same bytes are rejected by `try_from`. -/
theorem c3_validation_asymmetry :
    (∀ s : List Nat, (ChunkType.from_str s).isOk = (s.length == 4 && s.all isAsciiAlphabetic))
    ∧ ChunkType.from_str [82, 117, 115, 116] = Except.ok (ChunkType.mk 82 117 115 116)
    ∧ ChunkType.try_from 82 117 115 116 = Except.error ChunkTypeError.InvalidBytesError := by
  refine ⟨fun s => ?_, by decide, by decide⟩
  match s with
  | [] => rfl
  | [a] => rfl
  | [a, b] => rfl
  | [a, b, c] => rfl
  | [a, b, c, d] =>
    simp only [ChunkType.from_str]
    by_cases h : (ChunkType.mk a b c d).is_valid_characters = true
    · have h' : [a, b, c, d].all isAsciiAlphabetic = true := h
      rw [if_pos h]
      simp [h', Except.isOk, Except.toBool]
    · have h' : [a, b, c, d].all isAsciiAlphabetic = false := by
        cases hx : [a, b, c, d].all isAsciiAlphabetic
        · rfl
        · exact absurd hx h
      rw [if_neg h]
      simp [h', Except.isOk, Except.toBool]
  | a :: b :: c :: d :: e :: rest => rfl

/-- C4: raw-byte construction succeeds exactly when all four bytes are ASCII
alphabetic and bit 5 of the byte at index 2 is clear, yields the same bytes,
and otherwise fails with the invalid-type-code error. -/
theorem c4_from_bytes_characterization (b0 b1 b2 b3 : Nat) :
    ChunkType.try_from b0 b1 b2 b3
      = (if (isAsciiAlphabetic b0 && isAsciiAlphabetic b1 && isAsciiAlphabetic b2
              && isAsciiAlphabetic b3 && !(b2.testBit 5))
         then Except.ok (ChunkType.mk b0 b1 b2 b3)
         else Except.error ChunkTypeError.InvalidBytesError)
    ∧ (ChunkType.mk b0 b1 b2 b3).bytes = [b0, b1, b2, b3] := by
  refine ⟨?_, rfl⟩
  simp only [ChunkType.try_from]
  have hv : (ChunkType.mk b0 b1 b2 b3).is_valid
      = (isAsciiAlphabetic b0 && isAsciiAlphabetic b1 && isAsciiAlphabetic b2
          && isAsciiAlphabetic b3 && !(b2.testBit 5)) := by
    unfold ChunkType.is_valid ChunkType.is_valid_characters ChunkType.is_reserved_bit_valid
      ChunkType.bytes
    rw [is_bit_set_eq_testBit _ _ (by omega)]
    simp only [List.all_cons, List.all_nil, Bool.and_true, Bool.and_assoc]
  rw [hv]

/-- C6: the checksum is CRC-32/IEEE over type-code bytes followed by payload
bytes, and on the concrete "RuSt" chunk with the 42-byte test message the
length is 42 and the checksum is 2882656334. -/
theorem c6_crc_concrete :
    (∀ c : Chunk, c.crc = crc32 (c.chunk_type.bytes ++ c.chunk_data))
    ∧ scenarioAChunk.length = 42
    ∧ scenarioAChunk.crc = 2882656334 :=
  ⟨fun _ => rfl, by decide, by
    show crc32 ((ChunkType.mk 82 117 83 116).bytes ++ secretMessage) = 2882656334
    exact scenarioACrc⟩

/-- C7: each classification property reads exactly one bit of one byte —
`is_critical` bit 5 of byte 0 (true when clear), `is_public` bit 5 of byte 1
(true when clear), `is_safe_to_copy` bit 5 of byte 3 (true when set) — and is
unchanged when the other three bytes change. -/
theorem c7_property_independence (b0 b1 b2 b3 c0 c1 c2 c3 : Nat) :
    ((ChunkType.mk b0 b1 b2 b3).is_critical = !(b0.testBit 5)
      ∧ (ChunkType.mk b0 b1 b2 b3).is_public = !(b1.testBit 5)
      ∧ (ChunkType.mk b0 b1 b2 b3).is_safe_to_copy = b3.testBit 5)
    ∧ ((ChunkType.mk b0 b1 b2 b3).is_critical = (ChunkType.mk b0 c1 c2 c3).is_critical
      ∧ (ChunkType.mk b0 b1 b2 b3).is_public = (ChunkType.mk c0 b1 c2 c3).is_public
      ∧ (ChunkType.mk b0 b1 b2 b3).is_safe_to_copy
          = (ChunkType.mk c0 c1 c2 b3).is_safe_to_copy) := by
  refine ⟨⟨?_, ?_, ?_⟩, rfl, rfl, rfl⟩
  · unfold ChunkType.is_critical
    rw [is_bit_set_eq_testBit _ _ (by omega)]
  · unfold ChunkType.is_public
    rw [is_bit_set_eq_testBit _ _ (by omega)]
  · unfold ChunkType.is_safe_to_copy
    rw [is_bit_set_eq_testBit _ _ (by omega)]

/-- C9: the bit-test helper returns false for any bit index of 8 or more, and
reports the actual bit for indices below 8. -/
theorem c9_bit_guard (x n : Nat) :
    (8 ≤ n → is_bit_set x n = false) ∧ (n < 8 → is_bit_set x n = x.testBit n) := by
  constructor
  · intro h
    unfold is_bit_set
    rw [if_pos]
    simp [h]
  · intro h
    exact is_bit_set_eq_testBit x n h

/-- Witness for C9 at byte 170 with bit indices 9 and 5. -/
theorem c9_bit_guard_witness :
    (8 ≤ 9 ∧ is_bit_set 170 9 = false) ∧ (5 < 8 ∧ is_bit_set 170 5 = Nat.testBit 170 5) :=
  ⟨⟨by decide, (c9_bit_guard 170 9).1 (by decide)⟩,
   ⟨by decide, (c9_bit_guard 170 5).2 (by decide)⟩⟩

/-- C10: the defensive length comparison can never fire — parse never returns
a `LengthError`, because the payload slice taken after the bounds check always
has exactly the declared length. -/
theorem c10_no_length_error (value : List Nat) :
    resultIsLengthError (Chunk.try_from value) = false := by
  match value with
  | [] => rfl
  | [_] => rfl
  | [_, _] => rfl
  | [_, _, _] => rfl
  | [_, _, _, _] => rfl
  | [_, _, _, _, _] => rfl
  | [_, _, _, _, _, _] => rfl
  | [_, _, _, _, _, _, _] => rfl
  | l0 :: l1 :: l2 :: l3 :: t0 :: t1 :: t2 :: t3 :: rest =>
    simp only [Chunk.try_from]
    cases htf : ChunkType.try_from t0 t1 t2 t3 with
    | error e => rfl
    | ok ct =>
      dsimp only
      by_cases hlt : rest.length < u32_from_be_bytes l0 l1 l2 l3
      · rw [if_pos hlt]; rfl
      · rw [if_neg hlt]
        have htake : (rest.take (u32_from_be_bytes l0 l1 l2 l3)).length
            = u32_from_be_bytes l0 l1 l2 l3 := by
          rw [List.length_take]; omega
        rw [if_neg (fun hne => hne htake)]
        cases hdrop : rest.drop (u32_from_be_bytes l0 l1 l2 l3) with
        | nil => rfl
        | cons c0 r0 =>
          cases r0 with
          | nil => rfl
          | cons c1 r1 =>
            cases r1 with
            | nil => rfl
            | cons c2 r2 =>
              cases r2 with
              | nil => rfl
              | cons c3 tail =>
                dsimp only
                by_cases hcrc : u32_from_be_bytes c0 c1 c2 c3
                    ≠ (Chunk.new ct (rest.take (u32_from_be_bytes l0 l1 l2 l3))).crc
                · rw [if_pos hcrc]; rfl
                · rw [if_neg hcrc]; rfl

/-- C8: a successful parse only depends on the `12 + length` prefix — any bytes
appended after a buffer that parses successfully leave the result unchanged. -/
theorem c8_trailing_bytes (buf extra : List Nat) (c : Chunk)
    (h : Chunk.try_from buf = Except.ok c) :
    Chunk.try_from (buf ++ extra) = Except.ok c := by
  match buf with
  | [] => exact absurd h (by simp [Chunk.try_from])
  | [_] => exact absurd h (by simp [Chunk.try_from])
  | [_, _] => exact absurd h (by simp [Chunk.try_from])
  | [_, _, _] => exact absurd h (by simp [Chunk.try_from])
  | [_, _, _, _] => exact absurd h (by simp [Chunk.try_from])
  | [_, _, _, _, _] => exact absurd h (by simp [Chunk.try_from])
  | [_, _, _, _, _, _] => exact absurd h (by simp [Chunk.try_from])
  | [_, _, _, _, _, _, _] => exact absurd h (by simp [Chunk.try_from])
  | l0 :: l1 :: l2 :: l3 :: t0 :: t1 :: t2 :: t3 :: rest =>
    simp only [List.cons_append]
    simp only [Chunk.try_from] at h ⊢
    cases htf : ChunkType.try_from t0 t1 t2 t3 with
    | error e =>
      rw [htf] at h
      simp at h
    | ok ct =>
      rw [htf] at h
      dsimp only at h ⊢
      by_cases hlt : rest.length < u32_from_be_bytes l0 l1 l2 l3
      · rw [if_pos hlt] at h
        exact absurd h (by simp)
      · rw [if_neg hlt] at h
        have hlt2 : ¬ (rest ++ extra).length < u32_from_be_bytes l0 l1 l2 l3 := by
          rw [List.length_append]; omega
        rw [if_neg hlt2]
        have hzero : u32_from_be_bytes l0 l1 l2 l3 - rest.length = 0 := by omega
        have htakeapp : (rest ++ extra).take (u32_from_be_bytes l0 l1 l2 l3)
            = rest.take (u32_from_be_bytes l0 l1 l2 l3) := by
          rw [List.take_append_eq_append_take, hzero]
          simp
        have hdropapp : (rest ++ extra).drop (u32_from_be_bytes l0 l1 l2 l3)
            = rest.drop (u32_from_be_bytes l0 l1 l2 l3) ++ extra := by
          rw [List.drop_append_eq_append_drop, hzero]
          simp
        rw [htakeapp, hdropapp]
        by_cases hne : (rest.take (u32_from_be_bytes l0 l1 l2 l3)).length
            ≠ u32_from_be_bytes l0 l1 l2 l3
        · rw [if_pos hne] at h
          exact absurd h (by simp)
        · rw [if_neg hne] at h ⊢
          cases hdrop : rest.drop (u32_from_be_bytes l0 l1 l2 l3) with
          | nil =>
            rw [hdrop] at h
            exact absurd h (by simp)
          | cons c0 r0 =>
            cases r0 with
            | nil =>
              rw [hdrop] at h
              exact absurd h (by simp)
            | cons c1 r1 =>
              cases r1 with
              | nil =>
                rw [hdrop] at h
                exact absurd h (by simp)
              | cons c2 r2 =>
                cases r2 with
                | nil =>
                  rw [hdrop] at h
                  exact absurd h (by simp)
                | cons c3 tail =>
                  rw [hdrop] at h
                  simp only [List.cons_append]
                  dsimp only at h ⊢
                  by_cases hcrc : u32_from_be_bytes c0 c1 c2 c3
                      ≠ (Chunk.new ct (rest.take (u32_from_be_bytes l0 l1 l2 l3))).crc
                  · rw [if_pos hcrc] at h
                    exact absurd h (by simp)
                  · rw [if_neg hcrc] at h ⊢
                    exact h

set_option maxRecDepth 8000 in
/-- Witness for C8: the empty-payload "RuSt" buffer with three trailing bytes. -/
theorem c8_trailing_bytes_witness :
    Chunk.try_from emptyRuStBuffer = Except.ok (Chunk.new (ChunkType.mk 82 117 83 116) [])
    ∧ Chunk.try_from (emptyRuStBuffer ++ [9, 9, 9])
        = Except.ok (Chunk.new (ChunkType.mk 82 117 83 116) []) :=
  ⟨by decide, c8_trailing_bytes emptyRuStBuffer [9, 9, 9] _ (by decide)⟩

/-- Parsing a well-formed wire buffer with arbitrary type bytes: validation of
the type code happens first, then the checksum comparison. -/
theorem try_from_wire_general (tb0 tb1 tb2 tb3 : Nat) (p : List Nat) (w : Nat)
    (hlen : p.length < 2 ^ 32) (hw : w < 2 ^ 32) :
    Chunk.try_from (u32_to_be_bytes p.length ++ [tb0, tb1, tb2, tb3] ++ p ++ u32_to_be_bytes w)
      = if (ChunkType.mk tb0 tb1 tb2 tb3).is_valid = true
        then (if w ≠ (Chunk.new (ChunkType.mk tb0 tb1 tb2 tb3) p).crc
              then Except.error (ChunkError.CrcMismatchError w
                    ((Chunk.new (ChunkType.mk tb0 tb1 tb2 tb3) p).crc))
              else Except.ok (Chunk.new (ChunkType.mk tb0 tb1 tb2 tb3) p))
        else Except.error ChunkError.InvalidTypeCode := by
  by_cases hv : (ChunkType.mk tb0 tb1 tb2 tb3).is_valid = true
  · rw [if_pos hv]
    have h := try_from_wire (ChunkType.mk tb0 tb1 tb2 tb3) p w hv hlen hw
    simpa only [ChunkType.bytes] using h
  · rw [if_neg hv]
    have htf : ChunkType.try_from tb0 tb1 tb2 tb3
        = Except.error ChunkTypeError.InvalidBytesError := by
      unfold ChunkType.try_from
      rw [if_neg hv]
    simp only [u32_to_be_bytes, List.cons_append, List.nil_append]
    simp only [Chunk.try_from, htf]

/-- C2 (amended): inside a serialized chunk with the wire checksum field kept
unchanged, flipping any single bit of a payload byte makes parsing fail with a
checksum mismatch, and flipping any single bit of a type-code byte makes
parsing fail with a checksum mismatch when the modified type code still passes
validation, and with the invalid-type-code error otherwise. -/
theorem c2_amended_bit_flip (t : ChunkType) (d p1 p2 : List Nat) (b j : Nat)
    (ht : t.is_valid = true)
    (hd : d.all (fun x => x < 256) = true)
    (hj : j < 8)
    (hlen : d.length < 2 ^ 32)
    (hsplit : d = p1 ++ b :: p2) :
    Chunk.try_from (((Chunk.new t d).as_bytes).set (8 + p1.length) (b ^^^ (1 <<< j)))
      = Except.error (ChunkError.CrcMismatchError ((Chunk.new t d).crc)
          ((Chunk.new t (p1 ++ (b ^^^ (1 <<< j)) :: p2)).crc))
    ∧ Chunk.try_from (((Chunk.new t d).as_bytes).set 4 (t.bytez0 ^^^ (1 <<< j)))
      = (if (ChunkType.mk (t.bytez0 ^^^ (1 <<< j)) t.bytez1 t.bytez2 t.bytez3).is_valid = true
         then Except.error (ChunkError.CrcMismatchError ((Chunk.new t d).crc)
              ((Chunk.new (ChunkType.mk (t.bytez0 ^^^ (1 <<< j)) t.bytez1 t.bytez2 t.bytez3) d).crc))
         else Except.error ChunkError.InvalidTypeCode)
    ∧ Chunk.try_from (((Chunk.new t d).as_bytes).set 5 (t.bytez1 ^^^ (1 <<< j)))
      = (if (ChunkType.mk t.bytez0 (t.bytez1 ^^^ (1 <<< j)) t.bytez2 t.bytez3).is_valid = true
         then Except.error (ChunkError.CrcMismatchError ((Chunk.new t d).crc)
              ((Chunk.new (ChunkType.mk t.bytez0 (t.bytez1 ^^^ (1 <<< j)) t.bytez2 t.bytez3) d).crc))
         else Except.error ChunkError.InvalidTypeCode)
    ∧ Chunk.try_from (((Chunk.new t d).as_bytes).set 6 (t.bytez2 ^^^ (1 <<< j)))
      = (if (ChunkType.mk t.bytez0 t.bytez1 (t.bytez2 ^^^ (1 <<< j)) t.bytez3).is_valid = true
         then Except.error (ChunkError.CrcMismatchError ((Chunk.new t d).crc)
              ((Chunk.new (ChunkType.mk t.bytez0 t.bytez1 (t.bytez2 ^^^ (1 <<< j)) t.bytez3) d).crc))
         else Except.error ChunkError.InvalidTypeCode)
    ∧ Chunk.try_from (((Chunk.new t d).as_bytes).set 7 (t.bytez3 ^^^ (1 <<< j)))
      = (if (ChunkType.mk t.bytez0 t.bytez1 t.bytez2 (t.bytez3 ^^^ (1 <<< j))).is_valid = true
         then Except.error (ChunkError.CrcMismatchError ((Chunk.new t d).crc)
              ((Chunk.new (ChunkType.mk t.bytez0 t.bytez1 t.bytez2 (t.bytez3 ^^^ (1 <<< j))) d).crc))
         else Except.error ChunkError.InvalidTypeCode) := by
  have hd' : ∀ x ∈ d, x < 256 := by
    simpa only [List.all_eq_true, decide_eq_true_eq] using hd
  have htb := valid_type_bytes_lt t ht
  have hw : (Chunk.new t d).crc < 2 ^ 32 :=
    crc32_lt _ (bytes_lt_u32 (crc_data_bytes_lt t d ht hd'))
  have hm : d.length % 2 ^ 32 = d.length := Nat.mod_eq_of_lt hlen
  have hsufd : ∀ x ∈ d, x < 2 ^ 32 := bytes_lt_u32 hd'
  have hchain : (Chunk.new t d).as_bytes
      = (d.length / 2 ^ 24 % 256) :: (d.length / 2 ^ 16 % 256) :: (d.length / 2 ^ 8 % 256)
        :: (d.length % 256) :: t.bytez0 :: t.bytez1 :: t.bytez2 :: t.bytez3
        :: (d ++ u32_to_be_bytes ((Chunk.new t d).crc)) := by
    simp only [Chunk.as_bytes, Chunk.length, Chunk.new, hm, ChunkType.bytes, u32_to_be_bytes,
      List.cons_append, List.nil_append]
  refine ⟨?_, ?_, ?_, ?_, ?_⟩
  · have hb : b < 256 := hd' b (by rw [hsplit]; simp)
    have hp1' : ∀ x ∈ p1, x < 256 := fun x hx => hd' x (by rw [hsplit]; simp [hx])
    have hp2' : ∀ x ∈ p2, x < 256 := fun x hx => hd' x (by rw [hsplit]; simp [hx])
    have hlen' : (p1 ++ b :: p2).length < 2 ^ 32 := by rw [← hsplit]; exact hlen
    rw [hsplit]
    exact payload_flip_crc_mismatch t p1 p2 b j ht hp1' hb hp2' hj hlen'
  · rw [hchain]
    rw [show ((d.length / 2 ^ 24 % 256) :: (d.length / 2 ^ 16 % 256) :: (d.length / 2 ^ 8 % 256)
        :: (d.length % 256) :: t.bytez0 :: t.bytez1 :: t.bytez2 :: t.bytez3
        :: (d ++ u32_to_be_bytes ((Chunk.new t d).crc))).set 4 (t.bytez0 ^^^ (1 <<< j))
      = u32_to_be_bytes d.length ++ [t.bytez0 ^^^ (1 <<< j), t.bytez1, t.bytez2, t.bytez3]
        ++ d ++ u32_to_be_bytes ((Chunk.new t d).crc) from rfl]
    rw [try_from_wire_general _ _ _ _ d _ hlen hw]
    by_cases hv : (ChunkType.mk (t.bytez0 ^^^ (1 <<< j)) t.bytez1 t.bytez2 t.bytez3).is_valid
        = true
    · rw [if_pos hv, if_pos hv, if_pos ?_]
      have hne : crc32 (([] : List Nat) ++ t.bytez0 :: (t.bytez1 :: t.bytez2 :: t.bytez3 :: d))
          ≠ crc32 (([] : List Nat)
            ++ (t.bytez0 ^^^ (1 <<< j)) :: (t.bytez1 :: t.bytez2 :: t.bytez3 :: d)) := by
        refine crc32_flip_ne _ _ _ _ (by simp) ?_ (by omega)
          (by have := flip_lt t.bytez0 j (by omega) hj; omega) (flip_ne t.bytez0 j)
        intro x hx
        rcases List.mem_cons.mp hx with rfl | hx
        · omega
        rcases List.mem_cons.mp hx with rfl | hx
        · omega
        rcases List.mem_cons.mp hx with rfl | hx
        · omega
        exact hsufd x hx
      exact hne
    · rw [if_neg hv, if_neg hv]
  · rw [hchain]
    rw [show ((d.length / 2 ^ 24 % 256) :: (d.length / 2 ^ 16 % 256) :: (d.length / 2 ^ 8 % 256)
        :: (d.length % 256) :: t.bytez0 :: t.bytez1 :: t.bytez2 :: t.bytez3
        :: (d ++ u32_to_be_bytes ((Chunk.new t d).crc))).set 5 (t.bytez1 ^^^ (1 <<< j))
      = u32_to_be_bytes d.length ++ [t.bytez0, t.bytez1 ^^^ (1 <<< j), t.bytez2, t.bytez3]
        ++ d ++ u32_to_be_bytes ((Chunk.new t d).crc) from rfl]
    rw [try_from_wire_general _ _ _ _ d _ hlen hw]
    by_cases hv : (ChunkType.mk t.bytez0 (t.bytez1 ^^^ (1 <<< j)) t.bytez2 t.bytez3).is_valid
        = true
    · rw [if_pos hv, if_pos hv, if_pos ?_]
      have hne : crc32 ([t.bytez0] ++ t.bytez1 :: (t.bytez2 :: t.bytez3 :: d))
          ≠ crc32 ([t.bytez0] ++ (t.bytez1 ^^^ (1 <<< j)) :: (t.bytez2 :: t.bytez3 :: d)) := by
        refine crc32_flip_ne _ _ _ _ ?_ ?_ (by omega)
          (by have := flip_lt t.bytez1 j (by omega) hj; omega) (flip_ne t.bytez1 j)
        · intro x hx
          rcases List.mem_singleton.mp hx with rfl
          omega
        · intro x hx
          rcases List.mem_cons.mp hx with rfl | hx
          · omega
          rcases List.mem_cons.mp hx with rfl | hx
          · omega
          exact hsufd x hx
      exact hne
    · rw [if_neg hv, if_neg hv]
  · rw [hchain]
    rw [show ((d.length / 2 ^ 24 % 256) :: (d.length / 2 ^ 16 % 256) :: (d.length / 2 ^ 8 % 256)
        :: (d.length % 256) :: t.bytez0 :: t.bytez1 :: t.bytez2 :: t.bytez3
        :: (d ++ u32_to_be_bytes ((Chunk.new t d).crc))).set 6 (t.bytez2 ^^^ (1 <<< j))
      = u32_to_be_bytes d.length ++ [t.bytez0, t.bytez1, t.bytez2 ^^^ (1 <<< j), t.bytez3]
        ++ d ++ u32_to_be_bytes ((Chunk.new t d).crc) from rfl]
    rw [try_from_wire_general _ _ _ _ d _ hlen hw]
    by_cases hv : (ChunkType.mk t.bytez0 t.bytez1 (t.bytez2 ^^^ (1 <<< j)) t.bytez3).is_valid
        = true
    · rw [if_pos hv, if_pos hv, if_pos ?_]
      have hne : crc32 ([t.bytez0, t.bytez1] ++ t.bytez2 :: (t.bytez3 :: d))
          ≠ crc32 ([t.bytez0, t.bytez1] ++ (t.bytez2 ^^^ (1 <<< j)) :: (t.bytez3 :: d)) := by
        refine crc32_flip_ne _ _ _ _ ?_ ?_ (by omega)
          (by have := flip_lt t.bytez2 j (by omega) hj; omega) (flip_ne t.bytez2 j)
        · intro x hx
          rcases List.mem_cons.mp hx with rfl | hx
          · omega
          rcases List.mem_singleton.mp hx with rfl
          omega
        · intro x hx
          rcases List.mem_cons.mp hx with rfl | hx
          · omega
          exact hsufd x hx
      exact hne
    · rw [if_neg hv, if_neg hv]
  · rw [hchain]
    rw [show ((d.length / 2 ^ 24 % 256) :: (d.length / 2 ^ 16 % 256) :: (d.length / 2 ^ 8 % 256)
        :: (d.length % 256) :: t.bytez0 :: t.bytez1 :: t.bytez2 :: t.bytez3
        :: (d ++ u32_to_be_bytes ((Chunk.new t d).crc))).set 7 (t.bytez3 ^^^ (1 <<< j))
      = u32_to_be_bytes d.length ++ [t.bytez0, t.bytez1, t.bytez2, t.bytez3 ^^^ (1 <<< j)]
        ++ d ++ u32_to_be_bytes ((Chunk.new t d).crc) from rfl]
    rw [try_from_wire_general _ _ _ _ d _ hlen hw]
    by_cases hv : (ChunkType.mk t.bytez0 t.bytez1 t.bytez2 (t.bytez3 ^^^ (1 <<< j))).is_valid
        = true
    · rw [if_pos hv, if_pos hv, if_pos ?_]
      have hne : crc32 ([t.bytez0, t.bytez1, t.bytez2] ++ t.bytez3 :: d)
          ≠ crc32 ([t.bytez0, t.bytez1, t.bytez2] ++ (t.bytez3 ^^^ (1 <<< j)) :: d) := by
        refine crc32_flip_ne _ _ _ _ ?_ hsufd (by omega)
          (by have := flip_lt t.bytez3 j (by omega) hj; omega) (flip_ne t.bytez3 j)
        intro x hx
        rcases List.mem_cons.mp hx with rfl | hx
        · omega
        rcases List.mem_cons.mp hx with rfl | hx
        · omega
        rcases List.mem_singleton.mp hx with rfl
        omega
      exact hne
    · rw [if_neg hv, if_neg hv]

/-- Witness for the amended C2 at "RuSt", payload [65], with bit 0 flipped in
the payload byte. -/
theorem c2_amended_bit_flip_witness :
    (ChunkType.mk 82 117 83 116).is_valid = true
    ∧ ([65] : List Nat).all (fun x => x < 256) = true
    ∧ (0 : Nat) < 8
    ∧ ([65] : List Nat).length < 2 ^ 32
    ∧ ([65] : List Nat) = [] ++ 65 :: []
    ∧ Chunk.try_from
        (((Chunk.new (ChunkType.mk 82 117 83 116) [65]).as_bytes).set
          (8 + ([] : List Nat).length) (65 ^^^ (1 <<< 0)))
      = Except.error (ChunkError.CrcMismatchError
          ((Chunk.new (ChunkType.mk 82 117 83 116) [65]).crc)
          ((Chunk.new (ChunkType.mk 82 117 83 116) ([] ++ (65 ^^^ (1 <<< 0)) :: [])).crc)) :=
  ⟨by decide, by decide, by decide, by decide, by decide,
    (c2_amended_bit_flip (ChunkType.mk 82 117 83 116) [65] [] [] 65 0
      (by decide) (by decide) (by decide) (by decide) (by decide)).1⟩
